import Mathlib

set_option maxRecDepth 8192

/-!
Verification development for the mcp-elasticsearch Query Mediator.

The Go sources are shallowly embedded as executable Lean definitions:

* `Json` models the values produced by the `encoding/json` collaborator
  (`any` after `json.Unmarshal`); JSON numbers are kept as a decimal
  mantissa/exponent pair, which is lossless for reasoning about structure.
* `unmarshalAny` models `json.Unmarshal(data, &v)` for an `any` target,
  including the syntax checks and Go-style error messages;
  `unmarshalMapJ` models unmarshalling into a `map[string]any` target
  (JSON `null` yields a nil map, non-objects are a type error).
* `handleSearch`, `handleListIndices`, `handleGetMappings` and the
  construction pipeline follow `handler.go` and `config.go` of the
  repository (the fuller handler variant with `from`, `aggs`, `_source`,
  `highlight` and `timeout`, which the specification treats as canonical).
  External collaborators (the Elasticsearch client, the MCP transport)
  appear as explicit function parameters, so that "no backend call is
  made" is expressible as independence from that parameter.
* Go `int` is modelled as `Int`; the one place where 64-bit wrap-around
  is observable (`from+size` in the search validation) applies `wrap64`
  explicitly.
-/

/-- JSON values as decoded by Go `encoding/json` into `any`:
objects become string-keyed maps, arrays slices, numbers `float64`
(modelled losslessly as decimal mantissa times ten to `exp10`),
strings, booleans and null. -/
inductive Json where
  | null
  | bool (b : Bool)
  | num (mant : Int) (exp10 : Int)
  | str (s : String)
  | arr (elems : List Json)
  | obj (fields : List (String × Json))

/-- A single-quote character, used when assembling Go-style error texts. -/
def quoteS : String := String.singleton (Char.ofNat 39)

/-- The left curly brace character. -/
def lbr : Char := Char.ofNat 123

/-- The right curly brace character. -/
def rbr : Char := Char.ofNat 125

/-- Go json syntax errors: invalid character `c` in context `ctx`. -/
def errInvalidChar (c : Char) (ctx : String) : String :=
  "invalid character " ++ quoteS ++ String.singleton c ++ quoteS ++ " " ++ ctx

/-- Go json syntax error for truncated input. -/
def errEOF : String := "unexpected end of JSON input"

/-- JSON insignificant whitespace. -/
def isWs (c : Char) : Bool := c = ' ' || c = '\t' || c = '\n' || c = '\r'

/-- Drop leading JSON whitespace. -/
def skipWs : List Char → List Char
  | [] => []
  | c :: cs => if isWs c then skipWs cs else c :: cs

/-- ASCII decimal digit test. -/
def isDigitCh (c : Char) : Bool := '0' ≤ c && c ≤ '9'

/-- Split a maximal run of decimal digits off the front. -/
def takeDigits : List Char → List Char × List Char
  | [] => ([], [])
  | c :: cs =>
    if isDigitCh c then
      let (ds, rest) := takeDigits cs
      (c :: ds, rest)
    else ([], c :: cs)

/-- Numeric value of a digit run. -/
def natOfDigits (ds : List Char) : Nat :=
  ds.foldl (fun a c => a * 10 + (c.toNat - 48)) 0

/-- Hexadecimal digit value, if any. -/
def hexVal (c : Char) : Option Nat :=
  if isDigitCh c then some (c.toNat - 48)
  else if 'a' ≤ c && c ≤ 'f' then some (c.toNat - 87)
  else if 'A' ≤ c && c ≤ 'F' then some (c.toNat - 55)
  else none

/-- Exponent digits of a JSON number (the part after `e`/`E` and sign). -/
def parseExpDigits (mant : Int) (exp0 : Int) (negExp : Bool) (cs : List Char) :
    Except String (Json × List Char) :=
  match takeDigits cs with
  | ([], []) => .error errEOF
  | ([], c :: _) => .error (errInvalidChar c "in exponent of numeric literal")
  | (ds, rest) =>
    let e : Int := (natOfDigits ds : Nat)
    .ok (Json.num mant (exp0 + (if negExp then -e else e)), rest)

/-- Optional exponent part of a JSON number. -/
def parseExpPart (mant : Int) (exp0 : Int) (cs : List Char) :
    Except String (Json × List Char) :=
  match cs with
  | 'e' :: r | 'E' :: r =>
    match r with
    | '+' :: r2 => parseExpDigits mant exp0 false r2
    | '-' :: r2 => parseExpDigits mant exp0 true r2
    | r2 => parseExpDigits mant exp0 false r2
  | _ => .ok (Json.num mant exp0, cs)

/-- Optional fraction part of a JSON number (after the integer digits). -/
def parseFracPart (neg : Bool) (intDs : List Char) (cs : List Char) :
    Except String (Json × List Char) :=
  match cs with
  | '.' :: r =>
    match takeDigits r with
    | ([], []) => .error errEOF
    | ([], c :: _) => .error (errInvalidChar c "after decimal point in numeric literal")
    | (ds, rest) =>
      let m : Int := (natOfDigits (intDs ++ ds) : Nat)
      parseExpPart (if neg then -m else m) (-(ds.length : Int)) rest
  | _ =>
    let m : Int := (natOfDigits intDs : Nat)
    parseExpPart (if neg then -m else m) 0 cs

/-- A JSON number token; like Go, an integer part starting with `0` is
exactly the single digit `0` (so `01` leaves a trailing `1` behind). -/
def parseNumTok (neg : Bool) (cs : List Char) : Except String (Json × List Char) :=
  match cs with
  | [] => .error errEOF
  | c :: rest =>
    if c = '0' then parseFracPart neg ['0'] rest
    else if isDigitCh c then
      match takeDigits (c :: rest) with
      | (ds, r) => parseFracPart neg ds r
    else .error (errInvalidChar c "in numeric literal")

/-- Characters of a JSON string literal, after the opening quote. -/
def parseStrChars (fuel : Nat) (acc : List Char) (cs : List Char) :
    Except String (String × List Char) :=
  match fuel, cs with
  | _, [] => .error errEOF
  | 0, _ => .error errEOF
  | fuel + 1, c :: rest =>
    if c = '"' then .ok (String.mk acc.reverse, rest)
    else if c = '\\' then
      match rest with
      | [] => .error errEOF
      | e :: r2 =>
        if e = '"' then parseStrChars fuel ('"' :: acc) r2
        else if e = '\\' then parseStrChars fuel ('\\' :: acc) r2
        else if e = '/' then parseStrChars fuel ('/' :: acc) r2
        else if e = 'b' then parseStrChars fuel (Char.ofNat 8 :: acc) r2
        else if e = 'f' then parseStrChars fuel (Char.ofNat 12 :: acc) r2
        else if e = 'n' then parseStrChars fuel ('\n' :: acc) r2
        else if e = 'r' then parseStrChars fuel ('\r' :: acc) r2
        else if e = 't' then parseStrChars fuel ('\t' :: acc) r2
        else if e = 'u' then
          match r2 with
          | h1 :: h2 :: h3 :: h4 :: r3 =>
            match hexVal h1, hexVal h2, hexVal h3, hexVal h4 with
            | some a, some b, some c2, some d =>
              parseStrChars fuel (Char.ofNat (((a * 16 + b) * 16 + c2) * 16 + d) :: acc) r3
            | _, _, _, _ =>
              .error (errInvalidChar e "in \\u hexadecimal character escape")
          | _ => .error errEOF
        else .error (errInvalidChar e "in string escape code")
    else if c.toNat < 32 then .error (errInvalidChar c "in string literal")
    else parseStrChars fuel (c :: acc) rest

/-- Fixed literal tail (`rue`, `alse`, `ull`). -/
def parseLitRest (name : String) (expect : List Char) (v : Json) (cs : List Char) :
    Except String (Json × List Char) :=
  match expect, cs with
  | [], rest => .ok (v, rest)
  | _ :: _, [] => .error errEOF
  | e :: es, c :: rest =>
    if c = e then parseLitRest name es v rest
    else .error (errInvalidChar c
      ("in literal " ++ name ++ " (expecting " ++ quoteS ++ String.singleton e ++ quoteS ++ ")"))

/-- Insert a key into a decoded object; a duplicate key overwrites the
earlier entry, as assignment into a Go map does. -/
def putKV : List (String × Json) → String → Json → List (String × Json)
  | [], k, v => [(k, v)]
  | (k2, v2) :: rest, k, v =>
    if k2 = k then (k2, v) :: rest else (k2, v2) :: putKV rest k v

mutual

/-- One JSON value starting at `cs` (fuel-indexed; the fuel supplied by
`unmarshalAny` is always sufficient). -/
def parseVal : Nat → List Char → Except String (Json × List Char)
  | 0, _ => .error errEOF
  | fuel + 1, cs =>
    match skipWs cs with
    | [] => .error errEOF
    | c :: rest =>
      if c = lbr then parseObjStart fuel rest
      else if c = '[' then parseArrStart fuel rest
      else if c = '"' then
        match parseStrChars (rest.length + 1) [] rest with
        | .error e => .error e
        | .ok (s, r) => .ok (Json.str s, r)
      else if c = 't' then parseLitRest "true" ['r', 'u', 'e'] (Json.bool true) rest
      else if c = 'f' then parseLitRest "false" ['a', 'l', 's', 'e'] (Json.bool false) rest
      else if c = 'n' then parseLitRest "null" ['u', 'l', 'l'] Json.null rest
      else if c = '-' then parseNumTok true rest
      else if isDigitCh c then parseNumTok false (c :: rest)
      else .error (errInvalidChar c "looking for beginning of value")

/-- Object body after the opening brace. -/
def parseObjStart : Nat → List Char → Except String (Json × List Char)
  | 0, _ => .error errEOF
  | fuel + 1, cs =>
    match skipWs cs with
    | [] => .error errEOF
    | c :: rest =>
      if c = rbr then .ok (Json.obj [], rest)
      else if c = '"' then parseMember fuel [] rest
      else .error (errInvalidChar c "looking for beginning of object key string")

/-- One `key: value` member whose key string starts at `cs` (after its
opening quote), then the rest of the object. -/
def parseMember : Nat → List (String × Json) → List Char →
    Except String (Json × List Char)
  | 0, _, _ => .error errEOF
  | fuel + 1, acc, cs =>
    match parseStrChars (cs.length + 1) [] cs with
    | .error e => .error e
    | .ok (k, r1) =>
      match skipWs r1 with
      | [] => .error errEOF
      | c :: r2 =>
        if c = ':' then
          match parseVal fuel r2 with
          | .error e => .error e
          | .ok (v, r3) =>
            match skipWs r3 with
            | [] => .error errEOF
            | c2 :: r4 =>
              if c2 = ',' then
                match skipWs r4 with
                | [] => .error errEOF
                | c3 :: r5 =>
                  if c3 = '"' then parseMember fuel (putKV acc k v) r5
                  else .error (errInvalidChar c3 "looking for beginning of object key string")
              else if c2 = rbr then .ok (Json.obj (putKV acc k v), r4)
              else .error (errInvalidChar c2 "after object key:value pair")
        else .error (errInvalidChar c "after object key")

/-- Array body after the opening bracket. -/
def parseArrStart : Nat → List Char → Except String (Json × List Char)
  | 0, _ => .error errEOF
  | fuel + 1, cs =>
    match skipWs cs with
    | [] => .error errEOF
    | c :: rest =>
      if c = ']' then .ok (Json.arr [], rest)
      else parseArrElem fuel [] (c :: rest)

/-- Array elements from the first element on. -/
def parseArrElem : Nat → List Json → List Char → Except String (Json × List Char)
  | 0, _, _ => .error errEOF
  | fuel + 1, acc, cs =>
    match parseVal fuel cs with
    | .error e => .error e
    | .ok (v, r1) =>
      match skipWs r1 with
      | [] => .error errEOF
      | c :: r2 =>
        if c = ',' then parseArrElem fuel (acc ++ [v]) r2
        else if c = ']' then .ok (Json.arr (acc ++ [v]), r2)
        else .error (errInvalidChar c "after array element")

end

/-- Model of `json.Unmarshal(data, &v)` with `v : any`: one JSON value, then only
whitespace may remain.  Like Go, syntax checking covers the whole input. -/
def unmarshalAny (s : String) : Except String Json :=
  match parseVal (4 * s.length + 8) s.toList with
  | .error e => .error e
  | .ok (v, rest) =>
    match skipWs rest with
    | [] => .ok v
    | c :: _ => .error (errInvalidChar c "after top-level value")

/-- Go kind name used in `encoding/json` type-mismatch errors. -/
def jsonKind : Json → String
  | .null => "null"
  | .bool _ => "bool"
  | .num _ _ => "number"
  | .str _ => "string"
  | .arr _ => "array"
  | .obj _ => "object"

/-- The `encoding/json` error text for decoding a non-object into a
`map[string]any` target. -/
def cannotUnmarshalMapMsg (kind : String) : String :=
  "json: cannot unmarshal " ++ kind ++ " into Go value of type map[string]interface \x7b\x7d"

/-- Model of `json.Unmarshal(data, &m)` with `m : map[string]any`: JSON `null`
leaves the map nil (kept as `Json.null`, which is also how a nil map
re-marshals), an object decodes to its fields, and any other value is a
type error. -/
def unmarshalMapJ (s : String) : Except String Json :=
  match unmarshalAny s with
  | .error e => .error e
  | .ok v =>
    match v with
    | .obj fields => .ok (Json.obj fields)
    | .null => .ok Json.null
    | other => .error (cannotUnmarshalMapMsg (jsonKind other))

/-- The `len` of the decoded Go map (`nil` and empty both have length 0). -/
def jsonObjLen : Json → Nat
  | .obj fields => fields.length
  | _ => 0

/-! ## The MCP tool-call request surface

`mcp.CallToolRequest` carries a JSON argument map.  `ArgVal` keeps the
shapes the helpers below distinguish: strings, numbers (already converted
to a Go `int` by `GetInt`), booleans, and anything else. -/

/-- One argument value of a tool call. -/
inductive ArgVal where
  | str (s : String)
  | int (n : Int)
  | bool (b : Bool)
  | other

/-- The argument map of a tool call. -/
abbrev Args := List (String × ArgVal)

/-- Find an argument by name. -/
def lookupArg : Args → String → Option ArgVal
  | [], _ => none
  | (k2, v) :: rest, k => if k2 = k then some v else lookupArg rest k

/-- Model of `request.GetString(key, default)`: the value when present and a
string, else the default. -/
def getString (args : Args) (key defaultValue : String) : String :=
  match lookupArg args key with
  | some (.str s) => s
  | _ => defaultValue

/-- Model of `request.GetInt(key, default)`: the value when present and numeric,
else the default. -/
def getInt (args : Args) (key : String) (defaultValue : Int) : Int :=
  match lookupArg args key with
  | some (.int n) => n
  | _ => defaultValue

/-- Model of `request.GetBool(key, default)`. -/
def getBool (args : Args) (key : String) (defaultValue : Bool) : Bool :=
  match lookupArg args key with
  | some (.bool b) => b
  | _ => defaultValue

/-- Failure modes of `request.RequireString`: the argument is missing, or
present with a non-string value.  The two are distinct library errors. -/
inductive RequireErr where
  | notFound
  | wrongType

/-- Model of `request.RequireString(key)`. -/
def requireString (args : Args) (key : String) : Except RequireErr String :=
  match lookupArg args key with
  | none => .error .notFound
  | some (.str s) => .ok s
  | some _ => .error .wrongType

/-- A tool-call result: either the structured JSON document that
`mcp.NewToolResultText` serializes (kept as its key/value fields), or an
error result built by `mcp.NewToolResultError`. -/
inductive ToolResult where
  | ok (fields : List (String × Json))
  | err (msg : String)

/-- The error text both handlers return for any `RequireString` failure
on `index` (`handler.go` lines 179 and 227). -/
def missingIndexMsg : String := "Missing " ++ quoteS ++ "index" ++ quoteS ++ " parameter"

/-! ## Search parameter validation and query assembly (`handleSearch`) -/

/-- The 64-bit twos-complement wrap-around, the semantics of Go `int`
addition on 64-bit platforms. -/
def wrap64 (x : Int) : Int := (x + 2 ^ 63) % 2 ^ 64 - 2 ^ 63

/-- Validation of `size` and `from` (`handler.go` lines 253-262).  The
sum `from+size` is computed in Go `int` arithmetic, hence `wrap64`. -/
def validateSizeFrom (size from_ : Int) : Option String :=
  if size < 0 ∨ size > 10000 then some "Size parameter must be between 0 and 10000"
  else if from_ < 0 then some "From parameter must be >= 0"
  else if wrap64 (from_ + size) > 10000 then some "from + size must not exceed 10000"
  else none

/-- The canonical match-all query document. -/
def matchAllQuery : Json := Json.obj [("match_all", Json.obj [])]

/-- The literal default/empty query string. -/
def emptyObjStr : String := "\x7b\x7d"

/-- Query parsing (`handler.go` lines 264-283): the literal `"{}"` or the
empty string short-circuit to match-all; otherwise the string must
unmarshal into a map, and a map of length zero also becomes match-all. -/
def queryStep (qs : String) : Except String Json :=
  if qs = emptyObjStr ∨ qs = "" then .ok matchAllQuery
  else
    match unmarshalMapJ qs with
    | .error e => .error ("Invalid query JSON: " ++ e)
    | .ok v => .ok (if jsonObjLen v = 0 then matchAllQuery else v)

/-- Sort parsing (`handler.go` lines 302-309): empty means omitted;
otherwise any JSON value. -/
def sortStep (ss : String) : Except String (Option Json) :=
  if ss = "" then .ok none
  else
    match unmarshalAny ss with
    | .error e => .error ("Invalid sort JSON: " ++ e)
    | .ok v => .ok (some v)

/-- Aggregations parsing (`handler.go` lines 312-319): empty means
omitted; otherwise a JSON object (map target). -/
def aggsStep (as_ : String) : Except String (Option Json) :=
  if as_ = "" then .ok none
  else
    match unmarshalMapJ as_ with
    | .error e => .error ("Invalid aggregations JSON: " ++ e)
    | .ok v => .ok (some v)

/-- Source-filter parsing of `_source` (`handler.go` lines 322-329): empty means omitted;
otherwise any JSON value. -/
def sourceStep (srcs : String) : Except String (Option Json) :=
  if srcs = "" then .ok none
  else
    match unmarshalAny srcs with
    | .error e => .error ("Invalid _source JSON: " ++ e)
    | .ok v => .ok (some v)

/-- Highlight parsing (`handler.go` lines 332-342): empty means omitted;
otherwise a JSON object (map target). -/
def highlightStep (hs : String) : Except String (Option Json) :=
  if hs = "" then .ok none
  else
    match unmarshalMapJ hs with
    | .error e => .error ("Invalid highlight JSON: " ++ e)
    | .ok v => .ok (some v)

/-- Entry list for an optional document key. -/
def optEntry (k : String) : Option Json → List (String × Json)
  | none => []
  | some v => [(k, v)]

/-- The assembled `searchRequest` document (`handler.go` lines 285-342):
`query`, `size` and `from` always, `track_total_hits` when tracking,
`timeout` and each parsed optional sub-document only when supplied. -/
def assembleBody (q : Json) (size from_ : Int) (tth : Bool) (timeout : String)
    (so ag src hl : Option Json) : List (String × Json) :=
  [("query", q), ("size", Json.num size 0), ("from", Json.num from_ 0)]
    ++ (if tth then [("track_total_hits", Json.bool true)] else [])
    ++ (if timeout ≠ "" then [("timeout", Json.str timeout)] else [])
    ++ optEntry "sort" so ++ optEntry "aggs" ag
    ++ optEntry "_source" src ++ optEntry "highlight" hl

/-- Validation, sub-field parsing and assembly of the backend search
document, in source order (`handler.go` lines 253-349).  The first
failure aborts; later sub-fields are never examined after a failure. -/
def buildSearchBody (qs : String) (size from_ : Int)
    (ss as_ srcs hs : String) (tth : Bool) (timeout : String) :
    Except String (List (String × Json)) :=
  match validateSizeFrom size from_ with
  | some e => .error e
  | none =>
    match queryStep qs with
    | .error e => .error e
    | .ok q =>
      match sortStep ss with
      | .error e => .error e
      | .ok so =>
        match aggsStep as_ with
        | .error e => .error e
        | .ok ag =>
          match sourceStep srcs with
          | .error e => .error e
          | .ok src =>
            match highlightStep hs with
            | .error e => .error e
            | .ok hl => .ok (assembleBody q size from_ tth timeout so ag src hl)

/-! ## Search response normalization -/

/-- The decoded Elasticsearch search reply (`SearchResponse` in
`handler.go`).  `maxScore` mirrors the `*float64` field: `none` is a
JSON null / missing score; a present score keeps its decoded numeric
form.  `aggregations` mirrors the `map[string]any` field: `none` is a
nil map (key absent or null in the reply). -/
structure SearchResponse where
  took : Int
  timedOut : Bool
  shards : Json
  totalValue : Int
  totalRelation : String
  maxScore : Option (Int × Int)
  hits : List Json
  aggregations : Option (List (String × Json))

/-- The normalized search result (`handler.go` lines 388-407): flat
metadata, the backend hit list unchanged, the validated `from`/`size`
echoed, and `aggregations` only when the reply holds at least one
entry. -/
def normalizeSearchResult (index : String) (from_ size : Int) (r : SearchResponse) :
    List (String × Json) :=
  [("index", Json.str index),
   ("took", Json.num r.took 0),
   ("timed_out", Json.bool r.timedOut),
   ("total_hits", Json.num r.totalValue 0),
   ("max_score", match r.maxScore with
     | none => Json.null
     | some (m, e) => Json.num m e),
   ("hits", Json.arr r.hits),
   ("shards", r.shards),
   ("from", Json.num from_ 0),
   ("size", Json.num size 0)]
    ++ (match r.aggregations with
        | some kvs => if kvs.length > 0 then [("aggregations", Json.obj kvs)] else []
        | none => [])

/-- Model of `handleSearch` (`handler.go` lines 220-424).  The backend client is
the explicit `backend` parameter (index and assembled body; the search
options carrying `track_total_hits` and `timeout` are part of the opaque
collaborator call and do not affect the claims); transport errors, error
statuses and decode failures of the collaborator are its `.error`
outcomes, already formatted. -/
def handleSearch (args : Args)
    (backend : String → List (String × Json) → Except String SearchResponse) :
    ToolResult :=
  match requireString args "index" with
  | .error _ => .err missingIndexMsg
  | .ok index =>
    let queryString := getString args "query" emptyObjStr
    let size := getInt args "size" 10
    let from_ := getInt args "from" 0
    let sortString := getString args "sort" ""
    let aggsString := getString args "aggs" ""
    let sourceString := getString args "_source" ""
    let highlightString := getString args "highlight" ""
    let timeout := getString args "timeout" ""
    match buildSearchBody queryString size from_ sortString aggsString
        sourceString highlightString (getBool args "track_total_hits" true) timeout with
    | .error e => .err e
    | .ok body =>
      match backend index body with
      | .error e => .err e
      | .ok resp => .ok (normalizeSearchResult index from_ size resp)

/-! ## Collection listing and schema retrieval -/

/-- One row of the `_cat/indices` reply (`IndexInfo` in `handler.go`,
fuller variant). -/
structure IndexInfo where
  name : String
  health : String
  status : String
  uuid : String
  docsCount : String
  docsDeleted : String
  storeSize : String
  primarySize : String
  primaryCount : String
  replicaCount : String
  creationDate : String
  creationTime : String

/-- The per-index record of the listing response (`handler.go` lines
136-151). -/
def convertIndex (idx : IndexInfo) : Json :=
  Json.obj
    [("name", Json.str idx.name),
     ("health", Json.str idx.health),
     ("status", Json.str idx.status),
     ("uuid", Json.str idx.uuid),
     ("docs_count", Json.str idx.docsCount),
     ("docs_deleted", Json.str idx.docsDeleted),
     ("store_size", Json.str idx.storeSize),
     ("primary_size", Json.str idx.primarySize),
     ("primary_count", Json.str idx.primaryCount),
     ("replica_count", Json.str idx.replicaCount),
     ("creation_date", Json.str idx.creationDate),
     ("creation_time", Json.str idx.creationTime)]

/-- The listing response document (`handler.go` lines 134-157).  The Go
code builds `result` with `var result []map[string]any` and `append`;
with zero decoded entries that slice stays nil, and `json.Marshal`
serializes a nil slice as JSON `null`, hence the `Json.null` branch. -/
def listResponse (pattern : String) (indices : List IndexInfo) : List (String × Json) :=
  let result := indices.map convertIndex
  [("total_indices", Json.num result.length 0),
   ("pattern", Json.str pattern),
   ("indices", if result.isEmpty then Json.null else Json.arr result)]

/-- Model of `handleListIndices` (`handler.go` lines 100-170); the `_cat/indices`
call (with the pattern) and its JSON decoding are the `backend`
parameter. -/
def handleListIndices (args : Args)
    (backend : String → Except String (List IndexInfo)) : ToolResult :=
  let pattern := getString args "pattern" "*"
  match backend pattern with
  | .error e => .err e
  | .ok indices => .ok (listResponse pattern indices)

/-- Model of `handleGetMappings` (`handler.go` lines 172-218); the mappings call
and decode are the `backend` parameter. -/
def handleGetMappings (args : Args)
    (backend : String → Except String Json) : ToolResult :=
  match requireString args "index" with
  | .error _ => .err missingIndexMsg
  | .ok index =>
    match backend index with
    | .error e => .err e
    | .ok mappings => .ok [("index", Json.str index), ("mappings", mappings)]

/-! ## Construction: configuration validation and the startup liveness
check (`config.go` lines 64-83, `handler.go` lines 49-98) -/

/-- The Elasticsearch connection section of the configuration. -/
structure ElasticsearchConfig where
  url : String
  apiKey : String
  username : String
  password : String

/-- The configuration fields `validateConfig` examines. -/
structure Config where
  elasticsearch : ElasticsearchConfig
  logLevel : String

/-- Accepted log levels (`config.go` lines 75-77). -/
def validLogLevel (s : String) : Bool :=
  s = "debug" || s = "info" || s = "warn" || s = "error" || s = "fatal"

/-- Model of `validateConfig` (`config.go` lines 64-83): URL required, then either
an API key or a username+password pair, then a known log level. -/
def validateConfig (c : Config) : Except String Unit :=
  if c.elasticsearch.url = "" then
    .error "ES_URL environment variable is required"
  else if c.elasticsearch.apiKey = "" ∧
      (c.elasticsearch.username = "" ∨ c.elasticsearch.password = "") then
    .error "either ES_API_KEY or ES_USERNAME+ES_PASSWORD must be provided"
  else if ¬ validLogLevel c.logLevel then
    .error ("invalid log level: " ++ c.logLevel)
  else .ok ()

/-- The authentication method installed in the client configuration. -/
inductive AuthMethod where
  | apiKey (k : String)
  | basic (u p : String)
  | noAuth

/-- Auth selection of `newElasticsearchHandler` (`handler.go` lines
62-70): the API key when set, else basic auth when both username and
password are set, else nothing. -/
def authFor (cfg : ElasticsearchConfig) : AuthMethod :=
  if cfg.apiKey ≠ "" then .apiKey cfg.apiKey
  else if cfg.username ≠ "" ∧ cfg.password ≠ "" then .basic cfg.username cfg.password
  else .noAuth

/-- Outcome of the startup `client.Info()` liveness check: a transport
error, an HTTP error status, or success. -/
inductive LivenessOutcome where
  | transportErr (msg : String)
  | httpErr (msg : String)
  | ok

/-- The constructed handler; only the active auth method matters to the
claims. -/
structure ElasticsearchHandler where
  auth : AuthMethod

/-- Model of `newElasticsearchHandler` (`handler.go` lines 49-98): configure auth,
run one liveness check, fail construction on either kind of check
failure.  (`elasticsearch.NewClient` never fails for the configurations
reachable here.) -/
def newElasticsearchHandler (cfg : ElasticsearchConfig)
    (live : AuthMethod → LivenessOutcome) : Except String ElasticsearchHandler :=
  let auth := authFor cfg
  match live auth with
  | .transportErr m => .error ("error connecting to elasticsearch: " ++ m)
  | .httpErr m => .error ("elasticsearch connection error: " ++ m)
  | .ok => .ok ⟨auth⟩

/-- The startup path of `run()`: `loadConfig` validates the configuration
(`config.go` line 57), then the handler is constructed.  Construction of
the whole process fails on either step. -/
def startupHandler (c : Config) (live : AuthMethod → LivenessOutcome) :
    Except String ElasticsearchHandler :=
  match validateConfig c with
  | .error e => .error ("invalid configuration: " ++ e)
  | .ok _ => newElasticsearchHandler c.elasticsearch live

/-! ## Small utilities used by the theorems -/

/-- Does the document contain an entry with key `k`? -/
def containsKey (kvs : List (String × Json)) (k : String) : Bool :=
  kvs.any (fun p => p.1 == k)

/-- First value stored under key `k`. -/
def lookupKey : List (String × Json) → String → Option Json
  | [], _ => none
  | (k2, v) :: rest, k => if k2 = k then some v else lookupKey rest k

/-- Does `needle` start `hay`? -/
def startsWithL : List Char → List Char → Bool
  | _, [] => true
  | [], _ :: _ => false
  | c :: cs, d :: ds => c = d && startsWithL cs ds

/-- Does `needle` occur contiguously in `hay`? -/
def containsSubL : List Char → List Char → Bool
  | [], needle => needle.isEmpty
  | c :: t, needle => startsWithL (c :: t) needle || containsSubL t needle

/-- Substring occurrence on strings. -/
def strContains (hay needle : String) : Bool := containsSubL hay.toList needle.toList

/-- A backend stub used only to close witness statements; parameter-error
results are independent of it. -/
def noSearchBackend : String → List (String × Json) → Except String SearchResponse :=
  fun _ _ => .error "unreachable"

/-- A mappings-backend stub used only to close witness statements. -/
def noMappingsBackend : String → Except String Json := fun _ => .error "unreachable"

/-! ## Shared lemmas -/

theorem wrap64_eq_self {x : Int} (h1 : -(2 ^ 63) ≤ x) (h2 : x < 2 ^ 63) :
    wrap64 x = x := by
  have e1 : (2 : Int) ^ 63 = 9223372036854775808 := by norm_num
  have e2 : (2 : Int) ^ 64 = 18446744073709551616 := by norm_num
  unfold wrap64
  rw [e1, e2] at *
  rw [Int.emod_eq_of_lt (by omega) (by omega)]
  omega

theorem validateSizeFrom_eq_none_iff (size from_ : Int) :
    validateSizeFrom size from_ = none ↔
      (¬(size < 0 ∨ size > 10000) ∧ ¬(from_ < 0) ∧
        ¬(wrap64 (from_ + size) > 10000)) := by
  unfold validateSizeFrom
  split_ifs with h1 h2 h3
  · simp [h1]
  · simp [h1, h2]
  · simp [h1, h2, h3]
  · simp [h1, h2, h3]

/-! ## Claim C1 -/

/-- Claim C1 counterexample: the claimed biconditional fails on the
code.  With `size = 10000` and `from = 2^63 - 1024` (a value reachable
through `GetInt`), the Go `int` sum `from+size` wraps around to a
negative number, so the `from + size > 10000` guard does not fire and
validation passes, even though the true sum exceeds 10000. -/
theorem search_validation_overflow_cex :
    validateSizeFrom 10000 (2 ^ 63 - 1024) = none ∧
      ¬((2 ^ 63 - 1024 : Int) + 10000 ≤ 10000) := by
  constructor
  · decide
  · decide

/-- Claim C1 (amended): for all Go `int` (64-bit) parameters `size` and
`from`, search parameter validation passes if and only if
`0 ≤ size ≤ 10000`, `from ≥ 0`, and the 64-bit twos-complement sum of
`from` and `size` is at most 10000; whenever `from + size` does not
overflow (`from + size < 2^63`) this coincides with the claimed bound
`from + size ≤ 10000`.  Any violation produces exactly the source's
parameter-error result, and no backend call is made: the error result is
the same for every backend. -/
theorem search_validation_amended (size from_ : Int)
    (hs1 : -(2 ^ 63) ≤ size) (hs2 : size < 2 ^ 63)
    (hf1 : -(2 ^ 63) ≤ from_) (hf2 : from_ < 2 ^ 63) :
    (validateSizeFrom size from_ = none ↔
      (0 ≤ size ∧ size ≤ 10000 ∧ 0 ≤ from_ ∧ wrap64 (from_ + size) ≤ 10000)) ∧
    (from_ + size < 2 ^ 63 →
      (validateSizeFrom size from_ = none ↔
        (0 ≤ size ∧ size ≤ 10000 ∧ 0 ≤ from_ ∧ from_ + size ≤ 10000))) ∧
    (∀ (e : String) (args : Args) (idx : String)
        (bk : String → List (String × Json) → Except String SearchResponse),
        requireString args "index" = .ok idx →
        getInt args "size" 10 = size → getInt args "from" 0 = from_ →
        validateSizeFrom size from_ = some e →
        handleSearch args bk = .err e) := by
  have e1 : (2 : Int) ^ 63 = 9223372036854775808 := by norm_num
  refine ⟨?_, ?_, ?_⟩
  · rw [validateSizeFrom_eq_none_iff]
    constructor
    · rintro ⟨ha, hb, hc⟩
      omega
    · rintro ⟨ha, hb, hc, hd⟩
      omega
  · intro hlt
    rw [validateSizeFrom_eq_none_iff]
    by_cases hnn : 0 ≤ from_ + size
    · rw [wrap64_eq_self (by omega) hlt]
      omega
    · constructor
      · rintro ⟨ha, hb, hc⟩
        omega
      · rintro ⟨ha, hb, hc, hd⟩
        omega
  · intro e args idx bk hreq hsz hfr hval
    simp only [handleSearch, buildSearchBody, hreq, hsz, hfr, hval]

/-- Witness for `search_validation_amended` at `size = 10`, `from = 0`. -/
theorem search_validation_amended_witness :
    validateSizeFrom 10 0 = none ↔
      (0 ≤ (10 : Int) ∧ (10 : Int) ≤ 10000 ∧ 0 ≤ (0 : Int) ∧
        wrap64 (0 + 10) ≤ 10000) :=
  (search_validation_amended 10 0 (by norm_num) (by norm_num)
    (by norm_num) (by norm_num)).1

theorem buildSearchBody_ok_inv (qs : String) (size from_ : Int)
    (ss as_ srcs hs : String) (tth : Bool) (timeout : String)
    (body : List (String × Json))
    (h : buildSearchBody qs size from_ ss as_ srcs hs tth timeout = .ok body) :
    validateSizeFrom size from_ = none ∧
      ∃ q so ag src hl,
        queryStep qs = .ok q ∧ sortStep ss = .ok so ∧ aggsStep as_ = .ok ag ∧
        sourceStep srcs = .ok src ∧ highlightStep hs = .ok hl ∧
        body = assembleBody q size from_ tth timeout so ag src hl := by
  unfold buildSearchBody at h
  split at h
  next e hv => simp at h
  next hv =>
    split at h
    next e hq => simp at h
    next q hq =>
      split at h
      next e hso => simp at h
      next so hso =>
        split at h
        next e hag => simp at h
        next ag hag =>
          split at h
          next e hsrc => simp at h
          next src hsrc =>
            split at h
            next e hhl => simp at h
            next hl hhl =>
              exact ⟨hv, q, so, ag, src, hl, hq, hso, hag, hsrc, hhl,
                (Except.ok.inj h).symm⟩

theorem stepShape_isSome (parse : String → Except String Json) (pre s : String)
    (o : Option Json)
    (h : (if s = "" then Except.ok none
          else
            match parse s with
            | .error e => .error (pre ++ e)
            | .ok v => .ok (some v)) = (Except.ok o : Except String (Option Json))) :
    o.isSome = true ↔ s ≠ "" := by
  by_cases hss : s = ""
  · rw [if_pos hss] at h
    cases Except.ok.inj h
    simp [hss]
  · rw [if_neg hss] at h
    cases hu : parse s <;> rw [hu] at h
    · simp at h
    · cases Except.ok.inj h
      simp [hss]

theorem sortStep_ok_isSome (ss : String) (o : Option Json)
    (h : sortStep ss = .ok o) : o.isSome = true ↔ ss ≠ "" :=
  stepShape_isSome unmarshalAny "Invalid sort JSON: " ss o h

theorem aggsStep_ok_isSome (as_ : String) (o : Option Json)
    (h : aggsStep as_ = .ok o) : o.isSome = true ↔ as_ ≠ "" :=
  stepShape_isSome unmarshalMapJ "Invalid aggregations JSON: " as_ o h

theorem sourceStep_ok_isSome (srcs : String) (o : Option Json)
    (h : sourceStep srcs = .ok o) : o.isSome = true ↔ srcs ≠ "" :=
  stepShape_isSome unmarshalAny "Invalid _source JSON: " srcs o h

theorem highlightStep_ok_isSome (hs : String) (o : Option Json)
    (h : highlightStep hs = .ok o) : o.isSome = true ↔ hs ≠ "" :=
  stepShape_isSome unmarshalMapJ "Invalid highlight JSON: " hs o h

theorem containsKey_assemble_sort (q : Json) (size from_ : Int) (tth : Bool)
    (timeout : String) (so ag src hl : Option Json) :
    containsKey (assembleBody q size from_ tth timeout so ag src hl) "sort"
      = so.isSome := by
  cases so <;> cases ag <;> cases src <;> cases hl <;> cases tth <;>
    by_cases h : timeout = "" <;>
      simp [assembleBody, containsKey, optEntry, h]

theorem containsKey_assemble_aggs (q : Json) (size from_ : Int) (tth : Bool)
    (timeout : String) (so ag src hl : Option Json) :
    containsKey (assembleBody q size from_ tth timeout so ag src hl) "aggs"
      = ag.isSome := by
  cases so <;> cases ag <;> cases src <;> cases hl <;> cases tth <;>
    by_cases h : timeout = "" <;>
      simp [assembleBody, containsKey, optEntry, h]

theorem containsKey_assemble_source (q : Json) (size from_ : Int) (tth : Bool)
    (timeout : String) (so ag src hl : Option Json) :
    containsKey (assembleBody q size from_ tth timeout so ag src hl) "_source"
      = src.isSome := by
  cases so <;> cases ag <;> cases src <;> cases hl <;> cases tth <;>
    by_cases h : timeout = "" <;>
      simp [assembleBody, containsKey, optEntry, h]

theorem containsKey_assemble_highlight (q : Json) (size from_ : Int) (tth : Bool)
    (timeout : String) (so ag src hl : Option Json) :
    containsKey (assembleBody q size from_ tth timeout so ag src hl) "highlight"
      = hl.isSome := by
  cases so <;> cases ag <;> cases src <;> cases hl <;> cases tth <;>
    by_cases h : timeout = "" <;>
      simp [assembleBody, containsKey, optEntry, h]

theorem containsKey_assemble_timeout (q : Json) (size from_ : Int) (tth : Bool)
    (timeout : String) (so ag src hl : Option Json) :
    containsKey (assembleBody q size from_ tth timeout so ag src hl) "timeout"
      = !(timeout == "") := by
  cases so <;> cases ag <;> cases src <;> cases hl <;> cases tth <;>
    by_cases h : timeout = "" <;>
      simp [assembleBody, containsKey, optEntry, h]

theorem lookupKey_assemble_query (q : Json) (size from_ : Int) (tth : Bool)
    (timeout : String) (so ag src hl : Option Json) :
    lookupKey (assembleBody q size from_ tth timeout so ag src hl) "query"
      = some q := by
  simp [assembleBody, lookupKey]

theorem lookupKey_assemble_size (q : Json) (size from_ : Int) (tth : Bool)
    (timeout : String) (so ag src hl : Option Json) :
    lookupKey (assembleBody q size from_ tth timeout so ag src hl) "size"
      = some (Json.num size 0) := by
  simp [assembleBody, lookupKey]

/-! ## Claim C2 -/

/-- Claim C2: whenever the query parameter is the empty string, the
literal `"{}"`, or any string parsing to an empty JSON object, the query
step yields the canonical match-all clause, and any successfully
assembled backend document carries exactly that clause under its
`query` key. -/
theorem search_empty_query_matchall (qs : String)
    (hq : qs = "" ∨ qs = emptyObjStr ∨ unmarshalAny qs = .ok (Json.obj [])) :
    queryStep qs = .ok matchAllQuery ∧
    ∀ (size from_ : Int) (ss as_ srcs hs : String) (tth : Bool) (timeout : String)
      (body : List (String × Json)),
      buildSearchBody qs size from_ ss as_ srcs hs tth timeout = .ok body →
      lookupKey body "query" = some matchAllQuery := by
  have hstep : queryStep qs = .ok matchAllQuery := by
    unfold queryStep
    by_cases h1 : qs = emptyObjStr ∨ qs = ""
    · rw [if_pos h1]
    · rw [if_neg h1]
      rcases hq with h | h | h
      · exact absurd (Or.inr h) h1
      · exact absurd (Or.inl h) h1
      · have hm : unmarshalMapJ qs = .ok (Json.obj []) := by
          unfold unmarshalMapJ
          rw [h]
        rw [hm]
        simp [jsonObjLen]
  refine ⟨hstep, ?_⟩
  intro size from_ ss as_ srcs hs tth timeout body hb
  obtain ⟨-, q, so, ag, src, hl, hq2, -, -, -, -, hbody⟩ :=
    buildSearchBody_ok_inv _ _ _ _ _ _ _ _ _ _ hb
  rw [hstep] at hq2
  cases Except.ok.inj hq2
  rw [hbody]
  exact lookupKey_assemble_query _ _ _ _ _ _ _ _ _

/-- Witness for `search_empty_query_matchall` at the whitespace-padded
empty object string, which reaches match-all through the parser. -/
theorem search_empty_query_matchall_witness :
    queryStep " \x7b \x7d " = .ok matchAllQuery :=
  (search_empty_query_matchall " \x7b \x7d " (Or.inr (Or.inr rfl))).1

/-! ## Claim C3 -/

/-- Claim C3 counterexample: a malformed `sort` string fails the
operation with an error naming the field, but the returned error text is
the fixed prefix plus the decoder error only — the offending input
`"@@@@"` is not echoed to the caller (it goes to the log, which is not
part of the result). -/
theorem search_malformed_echo_cex :
    handleSearch [("index", ArgVal.str "logs"), ("sort", ArgVal.str "@@@@")]
        noSearchBackend
      = .err ("Invalid sort JSON: " ++
          errInvalidChar '@' "looking for beginning of value") ∧
    strContains
      ("Invalid sort JSON: " ++ errInvalidChar '@' "looking for beginning of value")
      "@@@@" = false := by
  exact ⟨rfl, rfl⟩

/-- Claim C3 (amended): a malformed non-empty JSON sub-field fails the
whole search with an error identifying that field (the first malformed
field in evaluation order `query`, `sort`, `aggs`, `_source`,
`highlight`) together with the decoder error; the offending input is
logged but not echoed in the result returned to the caller; no backend
call is made, and no later field is evaluated (each statement below
holds for arbitrary values of all later fields, and the handler result
is the same for every backend). -/
theorem search_malformed_field_amended (size from_ : Int)
    (hval : validateSizeFrom size from_ = none) :
    (∀ (qs : String) e, ¬(qs = emptyObjStr ∨ qs = "") →
      unmarshalMapJ qs = .error e →
      ∀ ss as_ srcs hs tth timeout,
        buildSearchBody qs size from_ ss as_ srcs hs tth timeout =
          .error ("Invalid query JSON: " ++ e)) ∧
    (∀ qs q ss e, queryStep qs = .ok q → ss ≠ "" → unmarshalAny ss = .error e →
      ∀ as_ srcs hs tth timeout,
        buildSearchBody qs size from_ ss as_ srcs hs tth timeout =
          .error ("Invalid sort JSON: " ++ e)) ∧
    (∀ qs q ss so as_ e, queryStep qs = .ok q → sortStep ss = .ok so →
      as_ ≠ "" → unmarshalMapJ as_ = .error e →
      ∀ srcs hs tth timeout,
        buildSearchBody qs size from_ ss as_ srcs hs tth timeout =
          .error ("Invalid aggregations JSON: " ++ e)) ∧
    (∀ qs q ss so as_ ag srcs e, queryStep qs = .ok q → sortStep ss = .ok so →
      aggsStep as_ = .ok ag → srcs ≠ "" → unmarshalAny srcs = .error e →
      ∀ hs tth timeout,
        buildSearchBody qs size from_ ss as_ srcs hs tth timeout =
          .error ("Invalid _source JSON: " ++ e)) ∧
    (∀ qs q ss so as_ ag srcs src hs e, queryStep qs = .ok q →
      sortStep ss = .ok so → aggsStep as_ = .ok ag → sourceStep srcs = .ok src →
      hs ≠ "" → unmarshalMapJ hs = .error e →
      ∀ tth timeout,
        buildSearchBody qs size from_ ss as_ srcs hs tth timeout =
          .error ("Invalid highlight JSON: " ++ e)) ∧
    (∀ (args : Args) idx e
        (bk bk2 : String → List (String × Json) → Except String SearchResponse),
      requireString args "index" = .ok idx →
      buildSearchBody (getString args "query" emptyObjStr)
          (getInt args "size" 10) (getInt args "from" 0)
          (getString args "sort" "") (getString args "aggs" "")
          (getString args "_source" "") (getString args "highlight" "")
          (getBool args "track_total_hits" true) (getString args "timeout" "") =
        .error e →
      handleSearch args bk = .err e ∧
        handleSearch args bk = handleSearch args bk2) := by
  refine ⟨?_, ?_, ?_, ?_, ?_, ?_⟩
  · intro qs e hne hparse ss as_ srcs hs tth timeout
    have hq : queryStep qs = .error ("Invalid query JSON: " ++ e) := by
      unfold queryStep
      rw [if_neg hne, hparse]
    simp only [buildSearchBody, hval, hq]
  · intro qs q ss e hq hss hparse as_ srcs hs tth timeout
    have hso : sortStep ss = .error ("Invalid sort JSON: " ++ e) := by
      unfold sortStep
      rw [if_neg hss, hparse]
    simp only [buildSearchBody, hval, hq, hso]
  · intro qs q ss so as_ e hq hso has hparse srcs hs tth timeout
    have hag : aggsStep as_ = .error ("Invalid aggregations JSON: " ++ e) := by
      unfold aggsStep
      rw [if_neg has, hparse]
    simp only [buildSearchBody, hval, hq, hso, hag]
  · intro qs q ss so as_ ag srcs e hq hso hag hsrcs hparse hs tth timeout
    have hsrc : sourceStep srcs = .error ("Invalid _source JSON: " ++ e) := by
      unfold sourceStep
      rw [if_neg hsrcs, hparse]
    simp only [buildSearchBody, hval, hq, hso, hag, hsrc]
  · intro qs q ss so as_ ag srcs src hs e hq hso hag hsrc hhs hparse tth timeout
    have hhl : highlightStep hs = .error ("Invalid highlight JSON: " ++ e) := by
      unfold highlightStep
      rw [if_neg hhs, hparse]
    simp only [buildSearchBody, hval, hq, hso, hag, hsrc, hhl]
  · intro args idx e bk bk2 hreq hbuild
    constructor
    · simp only [handleSearch, hreq, hbuild]
    · simp only [handleSearch, hreq, hbuild]

/-- Witness for `search_malformed_field_amended`: default query, a
malformed `sort`. -/
theorem search_malformed_field_amended_witness :
    buildSearchBody emptyObjStr 10 0 "@@@@" "" "" "" true "" =
      .error ("Invalid sort JSON: " ++
        errInvalidChar '@' "looking for beginning of value") :=
  (search_malformed_field_amended 10 0 (by decide)).2.1 emptyObjStr matchAllQuery
    "@@@@" (errInvalidChar '@' "looking for beginning of value") rfl (by decide)
    rfl "" "" "" true ""

/-! ## Claim C4 -/

/-- Claim C4: in every successfully assembled backend document, each of
the optional keys `sort`, `aggs`, `_source`, `highlight` and `timeout`
is present exactly when the corresponding input string is non-empty; and
assembling from `index = "logs-*"`, `query = "{\"match\":{\"a\":1}}"`,
`size = 5` (other parameters defaulted) produces a document whose
`query` key equals the parsed input and whose `size` key equals 5, with
no `sort`, `aggs` or `highlight` keys. -/
theorem search_body_optional_keys :
    (∀ (qs : String) (size from_ : Int) (ss as_ srcs hs : String) (tth : Bool)
        (timeout : String) (body : List (String × Json)),
      buildSearchBody qs size from_ ss as_ srcs hs tth timeout = .ok body →
        ((containsKey body "sort" = true ↔ ss ≠ "") ∧
         (containsKey body "aggs" = true ↔ as_ ≠ "") ∧
         (containsKey body "_source" = true ↔ srcs ≠ "") ∧
         (containsKey body "highlight" = true ↔ hs ≠ "") ∧
         (containsKey body "timeout" = true ↔ timeout ≠ ""))) ∧
    (buildSearchBody "\x7b\"match\":\x7b\"a\":1\x7d\x7d" 5 0 "" "" "" "" true "" =
        .ok (assembleBody (Json.obj [("match", Json.obj [("a", Json.num 1 0)])])
          5 0 true "" none none none none) ∧
      unmarshalAny "\x7b\"match\":\x7b\"a\":1\x7d\x7d" =
        .ok (Json.obj [("match", Json.obj [("a", Json.num 1 0)])]) ∧
      lookupKey (assembleBody (Json.obj [("match", Json.obj [("a", Json.num 1 0)])])
          5 0 true "" none none none none) "query" =
        some (Json.obj [("match", Json.obj [("a", Json.num 1 0)])]) ∧
      lookupKey (assembleBody (Json.obj [("match", Json.obj [("a", Json.num 1 0)])])
          5 0 true "" none none none none) "size" = some (Json.num 5 0) ∧
      containsKey (assembleBody (Json.obj [("match", Json.obj [("a", Json.num 1 0)])])
          5 0 true "" none none none none) "sort" = false ∧
      containsKey (assembleBody (Json.obj [("match", Json.obj [("a", Json.num 1 0)])])
          5 0 true "" none none none none) "aggs" = false ∧
      containsKey (assembleBody (Json.obj [("match", Json.obj [("a", Json.num 1 0)])])
          5 0 true "" none none none none) "highlight" = false) := by
  constructor
  · intro qs size from_ ss as_ srcs hs tth timeout body hb
    obtain ⟨-, q, so, ag, src, hl, -, hso, hag, hsrc, hhl, hbody⟩ :=
      buildSearchBody_ok_inv _ _ _ _ _ _ _ _ _ _ hb
    subst hbody
    refine ⟨?_, ?_, ?_, ?_, ?_⟩
    · rw [containsKey_assemble_sort]
      exact sortStep_ok_isSome _ _ hso
    · rw [containsKey_assemble_aggs]
      exact aggsStep_ok_isSome _ _ hag
    · rw [containsKey_assemble_source]
      exact sourceStep_ok_isSome _ _ hsrc
    · rw [containsKey_assemble_highlight]
      exact highlightStep_ok_isSome _ _ hhl
    · rw [containsKey_assemble_timeout]
      simp
  · exact ⟨rfl, rfl, rfl, rfl, rfl, rfl, rfl⟩

/-- Witness for `search_body_optional_keys`: a supplied `sort` value
shows up as a `sort` key. -/
theorem search_body_optional_keys_witness :
    containsKey
        (assembleBody matchAllQuery 10 0 true "" (some (Json.num 1 0)) none none none)
        "sort" = true ↔ ("1" : String) ≠ "" :=
  ((search_body_optional_keys.1 emptyObjStr 10 0 "1" "" "" "" true "" _ rfl).1)

/-! ## Claim C5 -/

/-- Claim C5: the normalized search result carries an `aggregations` key
exactly when the decoded backend reply has at least one aggregation
entry, and then its value is structurally equal to the reply's
aggregations object; a reply with zero entries produces no
`aggregations` key at all. -/
theorem normalize_aggregations_key (index : String) (from_ size : Int)
    (r : SearchResponse) :
    (containsKey (normalizeSearchResult index from_ size r) "aggregations" = true ↔
      0 < (match r.aggregations with
           | some kvs => kvs.length
           | none => 0)) ∧
    (∀ kvs, r.aggregations = some kvs → kvs ≠ [] →
      lookupKey (normalizeSearchResult index from_ size r) "aggregations" =
        some (Json.obj kvs)) := by
  constructor
  · rcases hagg : r.aggregations with _ | kvs
    · simp [normalizeSearchResult, containsKey, hagg]
    · by_cases hlen : 0 < kvs.length
      · simp [normalizeSearchResult, containsKey, hagg, hlen]
      · simp [normalizeSearchResult, containsKey, hagg, hlen]
  · intro kvs hagg hne
    have hlen : kvs.length > 0 := List.length_pos.mpr hne
    simp [normalizeSearchResult, lookupKey, hagg, hlen]

/-- Witness for `normalize_aggregations_key` on a reply with one
aggregation entry. -/
theorem normalize_aggregations_key_witness :
    lookupKey
        (normalizeSearchResult "i" 0 10
          ⟨1, false, Json.null, 0, "eq", none, [], some [("k", Json.null)]⟩)
        "aggregations" = some (Json.obj [("k", Json.null)]) :=
  (normalize_aggregations_key "i" 0 10
      ⟨1, false, Json.null, 0, "eq", none, [], some [("k", Json.null)]⟩).2
    [("k", Json.null)] rfl (by simp)

/-! ## Claim C6 -/

/-- A backend stub returning a fixed reply, used to close witnesses. -/
def constSearchBackend (r : SearchResponse) :
    String → List (String × Json) → Except String SearchResponse :=
  fun _ _ => .ok r

/-- A sample decoded backend reply. -/
def sampleResponse : SearchResponse :=
  ⟨1, false, Json.null, 0, "eq", none, [], none⟩

/-- Claim C6: the normalized result's `hits` is the reply's hit sequence
itself (same elements, same order, unreshaped), `max_score` is null
exactly when the reply carries no score, and the validated `from` and
`size` are echoed unchanged — on success `handleSearch` returns exactly
the normalization of the decoded reply at the request's `from`/`size`. -/
theorem normalize_hits_passthrough (index : String) (from_ size : Int)
    (r : SearchResponse) :
    lookupKey (normalizeSearchResult index from_ size r) "hits" =
      some (Json.arr r.hits) ∧
    (lookupKey (normalizeSearchResult index from_ size r) "max_score" =
        some Json.null ↔ r.maxScore = none) ∧
    lookupKey (normalizeSearchResult index from_ size r) "from" =
      some (Json.num from_ 0) ∧
    lookupKey (normalizeSearchResult index from_ size r) "size" =
      some (Json.num size 0) ∧
    (∀ (args : Args)
        (bk : String → List (String × Json) → Except String SearchResponse)
        (out : List (String × Json)),
      handleSearch args bk = .ok out →
      ∃ idx resp, requireString args "index" = .ok idx ∧
        out = normalizeSearchResult idx (getInt args "from" 0)
          (getInt args "size" 10) resp) := by
  refine ⟨?_, ?_, ?_, ?_, ?_⟩
  · rcases hms : r.maxScore with _ | ⟨m, e⟩ <;>
      simp [normalizeSearchResult, lookupKey, hms]
  · rcases hms : r.maxScore with _ | ⟨m, e⟩ <;>
      simp [normalizeSearchResult, lookupKey, hms]
  · simp [normalizeSearchResult, lookupKey]
  · simp [normalizeSearchResult, lookupKey]
  · intro args bk out h
    simp only [handleSearch] at h
    split at h
    next => simp at h
    next idx hreq =>
      split at h
      next e hb => simp at h
      next body hb =>
        split at h
        next e hbk => simp at h
        next resp hbk =>
          exact ⟨idx, resp, hreq, (ToolResult.ok.inj h).symm⟩

/-- Witness for `normalize_hits_passthrough`: a successful call is the
normalization of the decoded reply. -/
theorem normalize_hits_passthrough_witness :
    ∃ idx resp,
      requireString [("index", ArgVal.str "i")] "index" = .ok idx ∧
      normalizeSearchResult "i" 0 10 sampleResponse =
        normalizeSearchResult idx
          (getInt [("index", ArgVal.str "i")] "from" 0)
          (getInt [("index", ArgVal.str "i")] "size" 10) resp :=
  (normalize_hits_passthrough "i" 0 10 sampleResponse).2.2.2.2
    [("index", ArgVal.str "i")] (constSearchBackend sampleResponse)
    (normalizeSearchResult "i" 0 10 sampleResponse) rfl

/-! ## Claim C7 -/

/-- Glob matching with `*` wildcards.  Modelled from the spec: the
backend's index-pattern filtering (`_cat/indices` with an index pattern)
is collaborator behavior, simulated here for the listing scenario of the
specification's testable properties. -/
def globMatchF : Nat → List Char → List Char → Bool
  | 0, _, _ => false
  | fuel + 1, p, s =>
    match p, s with
    | [], [] => true
    | [], _ :: _ => false
    | '*' :: ps, [] => globMatchF fuel ps []
    | '*' :: ps, c :: cs =>
      globMatchF fuel ps (c :: cs) || globMatchF fuel ('*' :: ps) cs
    | _ :: _, [] => false
    | p1 :: ps, c :: cs => p1 = c && globMatchF fuel ps cs

/-- Glob matching with sufficient fuel (every recursive step shrinks
pattern plus subject, so this fuel is never exhausted). -/
def globMatch (p s : List Char) : Bool :=
  globMatchF (p.length + s.length + 2) p s

/-- A simulated `_cat/indices` backend over a fixed set of indices,
filtering by the supplied pattern. -/
def catIndicesSim (db : List IndexInfo) : String → Except String (List IndexInfo) :=
  fun pattern => .ok (db.filter fun i => globMatch pattern.toList i.name.toList)

/-- A sample index row with the given name. -/
def mkIdx (name : String) : IndexInfo :=
  ⟨name, "green", "open", "u1", "10", "0", "1kb", "1kb", "1", "1", "0", "t"⟩

/-- Claim C7: the listing result's `total_indices` equals the number of
entries in its `indices` array and `pattern` echoes the caller's (or
defaulted) pattern; listing `"logs-*"` against a backend holding
`logs-a`, `logs-b`, `metrics-a` returns exactly the two `logs-*` rows
with `total_indices = 2`. -/
theorem list_indices_total_and_pattern :
    (∀ (pattern : String) (indices : List IndexInfo),
      lookupKey (listResponse pattern indices) "total_indices" =
        some (Json.num indices.length 0) ∧
      lookupKey (listResponse pattern indices) "pattern" =
        some (Json.str pattern)) ∧
    (∀ (args : Args) (backend : String → Except String (List IndexInfo))
        (indices : List IndexInfo),
      backend (getString args "pattern" "*") = .ok indices →
      handleListIndices args backend =
        .ok (listResponse (getString args "pattern" "*") indices)) ∧
    (handleListIndices [("pattern", ArgVal.str "logs-*")]
        (catIndicesSim [mkIdx "logs-a", mkIdx "logs-b", mkIdx "metrics-a"]) =
      .ok (listResponse "logs-*" [mkIdx "logs-a", mkIdx "logs-b"]) ∧
      lookupKey (listResponse "logs-*" [mkIdx "logs-a", mkIdx "logs-b"])
        "total_indices" = some (Json.num 2 0) ∧
      lookupKey (listResponse "logs-*" [mkIdx "logs-a", mkIdx "logs-b"]) "indices" =
        some (Json.arr [convertIndex (mkIdx "logs-a"), convertIndex (mkIdx "logs-b")])) := by
  refine ⟨?_, ?_, ?_⟩
  · intro pattern indices
    constructor
    · simp [listResponse, lookupKey, List.length_map]
    · simp [listResponse, lookupKey]
  · intro args backend indices hb
    simp only [handleListIndices, hb]
  · exact ⟨rfl, rfl, rfl⟩

/-- Witness for `list_indices_total_and_pattern`: the defaulted `"*"`
pattern passes every sample row through. -/
theorem list_indices_total_and_pattern_witness :
    handleListIndices []
        (catIndicesSim [mkIdx "logs-a", mkIdx "logs-b", mkIdx "metrics-a"]) =
      .ok (listResponse "*" [mkIdx "logs-a", mkIdx "logs-b", mkIdx "metrics-a"]) :=
  list_indices_total_and_pattern.2.1 []
    (catIndicesSim [mkIdx "logs-a", mkIdx "logs-b", mkIdx "metrics-a"])
    [mkIdx "logs-a", mkIdx "logs-b", mkIdx "metrics-a"] rfl

/-! ## Claim C8 -/

theorem validateConfig_ok_inv (c : Config) (hv : validateConfig c = .ok ()) :
    c.elasticsearch.url ≠ "" ∧
    ¬(c.elasticsearch.apiKey = "" ∧
        (c.elasticsearch.username = "" ∨ c.elasticsearch.password = "")) ∧
    validLogLevel c.logLevel = true := by
  unfold validateConfig at hv
  split_ifs at hv with h1 h2 h3
  exact ⟨h1, h2, by simpa using h3⟩

theorem startupHandler_ok_inv (c : Config) (live : AuthMethod → LivenessOutcome)
    (h : ElasticsearchHandler) (hok : startupHandler c live = .ok h) :
    validateConfig c = .ok () ∧ live (authFor c.elasticsearch) = .ok ∧
      h.auth = authFor c.elasticsearch := by
  unfold startupHandler at hok
  split at hok
  next e he => simp at hok
  next u hv =>
    simp only [newElasticsearchHandler] at hok
    split at hok
    next m hl => simp at hok
    next m hl => simp at hok
    next hl =>
      refine ⟨?_, hl, ?_⟩
      · cases u
        exact hv
      · cases Except.ok.inj hok
        rfl

/-- Claim C8: at construction time exactly one authentication method is
active — the API key when configured (any username/password pair is
then ignored in favor of it), otherwise the username/password pair —
and construction fails entirely, returning no handler, when no
authentication is configured or when the startup liveness check does
not succeed. -/
theorem startup_auth_construction (c : Config) (live : AuthMethod → LivenessOutcome) :
    ((c.elasticsearch.apiKey = "" ∧
        (c.elasticsearch.username = "" ∨ c.elasticsearch.password = "")) →
      ∀ h, startupHandler c live ≠ .ok h) ∧
    (live (authFor c.elasticsearch) ≠ .ok → ∀ h, startupHandler c live ≠ .ok h) ∧
    (∀ h, startupHandler c live = .ok h →
      (c.elasticsearch.apiKey ≠ "" → h.auth = .apiKey c.elasticsearch.apiKey) ∧
      (c.elasticsearch.apiKey = "" →
        h.auth = .basic c.elasticsearch.username c.elasticsearch.password ∧
        c.elasticsearch.username ≠ "" ∧ c.elasticsearch.password ≠ "")) := by
  refine ⟨?_, ?_, ?_⟩
  · intro hno h hok
    obtain ⟨hv, -, -⟩ := startupHandler_ok_inv c live h hok
    obtain ⟨-, hnot, -⟩ := validateConfig_ok_inv c hv
    exact hnot hno
  · intro hlive h hok
    exact hlive (startupHandler_ok_inv c live h hok).2.1
  · intro h hok
    obtain ⟨hv, -, hauth⟩ := startupHandler_ok_inv c live h hok
    obtain ⟨-, hnot, -⟩ := validateConfig_ok_inv c hv
    constructor
    · intro hk
      rw [hauth]
      unfold authFor
      rw [if_pos hk]
    · intro hk
      have huser : c.elasticsearch.username ≠ "" ∧ c.elasticsearch.password ≠ "" := by
        by_contra hcon
        push_neg at hcon
        rcases Classical.em (c.elasticsearch.username = "") with hu | hu
        · exact hnot ⟨hk, Or.inl hu⟩
        · exact hnot ⟨hk, Or.inr (hcon hu)⟩
      refine ⟨?_, huser⟩
      rw [hauth]
      unfold authFor
      rw [if_neg (by simp [hk]), if_pos huser]

/-- A liveness stub that always succeeds, for witnesses. -/
def allOkLive : AuthMethod → LivenessOutcome := fun _ => .ok

/-- A sample validated configuration carrying both credential kinds. -/
def sampleConfig : Config := ⟨⟨"http://localhost:9200", "k", "u", "p"⟩, "info"⟩

/-- Witness for `startup_auth_construction`: with both an API key and a
username/password pair configured, the constructed handler uses the API
key. -/
theorem startup_auth_construction_witness :
    (⟨AuthMethod.apiKey "k"⟩ : ElasticsearchHandler).auth = AuthMethod.apiKey "k" :=
  ((startup_auth_construction sampleConfig allOkLive).2.2
    ⟨AuthMethod.apiKey "k"⟩ rfl).1 (by decide)

/-! ## Claim C9 -/

/-- Claim C9 counterexample: an absent `index` and a present-but-
malformed (non-string) `index` produce literally the same error result,
`Missing index parameter`, for both the search and the
schema-retrieval operations — not distinct errors. -/
theorem missing_index_same_error_cex :
    handleSearch [] noSearchBackend = .err missingIndexMsg ∧
    handleSearch [("index", ArgVal.int 42)] noSearchBackend = .err missingIndexMsg ∧
    handleSearch [] noSearchBackend =
      handleSearch [("index", ArgVal.int 42)] noSearchBackend ∧
    handleGetMappings [] noMappingsBackend = .err missingIndexMsg ∧
    handleGetMappings [("index", ArgVal.int 42)] noMappingsBackend =
      .err missingIndexMsg := by
  exact ⟨rfl, rfl, rfl, rfl, rfl⟩

/-- Claim C9 (amended): for the schema-retrieval and search operations,
every call on which `RequireString` fails — whether `index` is absent or
present with a non-string value — produces one and the same error
result, `Missing index parameter`; the two failure modes are
distinguished only in the library error that is logged, not in the
result returned to the caller. -/
theorem missing_index_error_amended (args : Args)
    (h : ∀ s, requireString args "index" ≠ .ok s) :
    (∀ bk, handleSearch args bk = .err missingIndexMsg) ∧
    (∀ bk, handleGetMappings args bk = .err missingIndexMsg) := by
  have hreq : ∃ e, requireString args "index" = .error e := by
    cases hr : requireString args "index"
    · exact ⟨_, rfl⟩
    · exact absurd hr (h _)
  obtain ⟨e, he⟩ := hreq
  constructor <;> intro bk
  · simp only [handleSearch, he]
  · simp only [handleGetMappings, he]

/-- Witness for `missing_index_error_amended` on a non-string `index`. -/
theorem missing_index_error_amended_witness :
    handleSearch [("index", ArgVal.int 42)] noSearchBackend =
      .err missingIndexMsg :=
  (missing_index_error_amended [("index", ArgVal.int 42)]
      (by intro s hcontra; simp [requireString, lookupArg] at hcontra)).1
    noSearchBackend

/-! ## Claim C10 -/

/-- A `_cat/indices` backend whose reply decodes to zero entries. -/
def emptyCatBackend : String → Except String (List IndexInfo) := fun _ => .ok []

/-- Claim C10: a listing whose backend reply decodes to zero index
entries returns `total_indices = 0` and an `indices` field that is the
nil slice, which `json.Marshal` serializes as JSON `null` (modelled as
`Json.null`), not as the empty array. -/
theorem list_indices_empty_null :
    (∀ pattern : String,
      lookupKey (listResponse pattern []) "total_indices" = some (Json.num 0 0) ∧
      lookupKey (listResponse pattern []) "indices" = some Json.null ∧
      Json.null ≠ Json.arr []) ∧
    (∀ (args : Args) (backend : String → Except String (List IndexInfo)),
      backend (getString args "pattern" "*") = .ok [] →
      handleListIndices args backend =
        .ok (listResponse (getString args "pattern" "*") [])) := by
  constructor
  · intro pattern
    exact ⟨rfl, rfl, by simp⟩
  · intro args backend hb
    simp only [handleListIndices, hb]

/-- Witness for `list_indices_empty_null` on an empty backend. -/
theorem list_indices_empty_null_witness :
    handleListIndices [] emptyCatBackend = .ok (listResponse "*" []) :=
  list_indices_empty_null.2 [] emptyCatBackend rfl
